import Mathlib

/-!
Shallow embedding of the PDBench iterated-game benchmarking core
(`src/pdbench`): actions, seeded RNG, horizons, transcript/observation
construction, the single-game runner with its round logger, the policy
agents, the strict output parser with bounded retry, the LLM agent shell,
the per-replicate metrics, and the aggregate recomputation pipeline.
The underlying PRNG (`random.Random`) is abstracted as a function from
seed and draw position to a rational in `[0,1)`.
-/

namespace PDBench

/-- Prisoner-dilemma action, serialized as "C" / "D". -/
inductive Action where
  | C
  | D
deriving DecidableEq, Repr

/-- The `.value` attribute of an `Action`. -/
def Action.value : Action → String
  | .C => "C"
  | .D => "D"

/-! ## Seeded RNG (`core/rng.py`)

`random.Random` is modelled by an ambient `stream : Option Int → Nat → Rat`
giving the n-th uniform draw of the generator rebound with a given seed;
the RNG state is the seed plus the number of draws consumed since the last
rebind. -/

/-- State of `SeededRNG`: the stored seed and the draw position of the
underlying generator since it was last rebound. -/
structure SeededRNG where
  seed : Option Int
  pos : Nat
deriving DecidableEq, Repr

/-- `SeededRNG.__init__`: store the seed and bind a fresh generator. -/
def SeededRNG.init (seed : Option Int) : SeededRNG := ⟨seed, 0⟩

/-- `SeededRNG.reset`: keep the old seed when the argument is absent,
then rebind the generator to the stored seed. -/
def SeededRNG.reset (r : SeededRNG) (seed : Option Int) : SeededRNG :=
  { seed := match seed with | some s => some s | none => r.seed
    pos := 0 }

/-- `SeededRNG.random`: one uniform draw, advancing the generator. -/
def SeededRNG.random (stream : Option Int → Nat → Rat) (r : SeededRNG) :
    Rat × SeededRNG :=
  (stream r.seed r.pos, ⟨r.seed, r.pos + 1⟩)

/-- `SeededRNG.should_stop`: Bernoulli draw, true iff `random() < stop_prob`. -/
def SeededRNG.bernoulli (stream : Option Int → Nat → Rat) (r : SeededRNG)
    (stop_prob : Rat) : Bool × SeededRNG :=
  let (u, r2) := SeededRNG.random stream r
  (decide (u < stop_prob), r2)

/-- Iterate `SeededRNG.random` `k` times, keeping only the state. -/
def applyDraws (stream : Option Int → Nat → Rat) : Nat → SeededRNG → SeededRNG
  | 0, r => r
  | k + 1, r => applyDraws stream k (SeededRNG.random stream r).2

/-! ## Horizons (`core/horizon.py`) -/

/-- State of `GeometricHorizon`: stop probability, cap, private RNG and
the latched stop index. -/
structure GeometricHorizonState where
  stop_prob : Rat
  max_rounds : Nat
  rng : SeededRNG
  stopped_at : Option Nat
deriving DecidableEq, Repr

/-- `GeometricHorizon.__init__`. -/
def GeometricHorizonState.init (stop_prob : Rat) (seed : Option Int)
    (max_rounds : Nat) : GeometricHorizonState :=
  ⟨stop_prob, max_rounds, SeededRNG.init seed, none⟩

/-- `GeometricHorizon.should_stop`: cap check, then latched-stop check,
then (only when nothing is latched) a fresh Bernoulli sample that latches
the current index on a stop. -/
def GeometricHorizonState.should_stop (stream : Option Int → Nat → Rat)
    (g : GeometricHorizonState) (round_index : Nat) :
    Bool × GeometricHorizonState :=
  if g.max_rounds ≤ round_index then (true, g)
  else
    match g.stopped_at with
    | some s => if s ≤ round_index then (true, g) else (false, g)
    | none =>
      let (b, rng2) := SeededRNG.bernoulli stream g.rng g.stop_prob
      if b then (true, { g with rng := rng2, stopped_at := some round_index })
      else (false, { g with rng := rng2 })

/-- `GeometricHorizon.reset`: reset the RNG and clear the latch. -/
def GeometricHorizonState.reset (g : GeometricHorizonState)
    (seed : Option Int) : GeometricHorizonState :=
  { g with rng := g.rng.reset seed, stopped_at := none }

/-! ## Payoff matrix (`core/payoff.py`) -/

/-- 2×2 payoff matrix: each cell is `(agent_a_payoff, agent_b_payoff)`. -/
structure PayoffMatrix where
  cc : Int × Int
  cd : Int × Int
  dc : Int × Int
  dd : Int × Int
deriving DecidableEq, Repr

/-- `PayoffMatrix.get_payoffs`. -/
def PayoffMatrix.get_payoffs (m : PayoffMatrix) (a b : Action) : Int × Int :=
  match a, b with
  | .C, .C => m.cc
  | .C, .D => m.cd
  | .D, .C => m.dc
  | .D, .D => m.dd

/-- The default payoff matrix from `PayoffMatrixConfig`. -/
def defaultPayoffMatrix : PayoffMatrix :=
  ⟨(3, 3), (0, 5), (5, 0), (1, 1)⟩

/-! ## Round results and observations (`core/types.py`, `core/transcript.py`) -/

/-- `RoundResult`. -/
structure RoundResult where
  round_index : Nat
  agent_a_action : Action
  agent_b_action : Action
  agent_a_payoff : Int
  agent_b_payoff : Int
  agent_a_cum_payoff : Int
  agent_b_cum_payoff : Int
deriving DecidableEq, Repr

/-- `Observation`: history entries are
`(my_action, opp_action, my_payoff, opp_payoff)`. -/
structure Observation where
  round_number : Nat
  history : List (Action × Action × Int × Int)
  my_cumulative_payoff : Int
  opponent_cumulative_payoff : Int
  payoff_matrix : PayoffMatrix
  horizon_type : String
  total_rounds : Option Nat
deriving DecidableEq, Repr

/-- Static configuration of `TranscriptBuilder`. -/
structure TranscriptCfg where
  history_window : Nat
  payoff_matrix : PayoffMatrix
  horizon_type : String
  total_rounds : Option Nat
deriving DecidableEq, Repr

/-- `TranscriptBuilder.build_observation`: window the stored rounds, project
each from the requested side, and take cumulative payoffs from the most
recent round (0 when empty). -/
def build_observation (cfg : TranscriptCfg) (rounds : List RoundResult)
    (round_number : Nat) (for_agent_a : Bool) : Observation :=
  let window_start := rounds.length - cfg.history_window
  let windowed := rounds.drop window_start
  let history := windowed.map (fun r =>
    if for_agent_a then
      (r.agent_a_action, r.agent_b_action, r.agent_a_payoff, r.agent_b_payoff)
    else
      (r.agent_b_action, r.agent_a_action, r.agent_b_payoff, r.agent_a_payoff))
  let cums :=
    match rounds.getLast? with
    | some last =>
      if for_agent_a then (last.agent_a_cum_payoff, last.agent_b_cum_payoff)
      else (last.agent_b_cum_payoff, last.agent_a_cum_payoff)
    | none => ((0 : Int), (0 : Int))
  { round_number := round_number
    history := history
    my_cumulative_payoff := cums.1
    opponent_cumulative_payoff := cums.2
    payoff_matrix := cfg.payoff_matrix
    horizon_type := cfg.horizon_type
    total_rounds := cfg.total_rounds }

/-! ## Round logger (`core/logging.py`) -/

/-- JSON value as written into a `rounds.jsonl` record. -/
inductive JValue where
  | null
  | jstr (s : String)
  | jint (n : Int)
  | jrat (q : Rat)
  | jmap (entries : List (String × String))
deriving DecidableEq, Repr

/-- `RoundLogger.log_round`: builds the record dict, with `fixed_n` and
`stop_prob` keys always present (null when the argument is `None`) and
`prompts` / `raw_responses` keys appended only when truthy. -/
def log_round (run_id condition : String) (replicate round_index : Nat)
    (agent_a_action agent_b_action : Action)
    (agent_a_payoff agent_b_payoff agent_a_cum_payoff agent_b_cum_payoff : Int)
    (horizon_type : String) (fixed_n : Option Nat) (stop_prob : Option Rat)
    (timestamp_utc : String) (prompts raw_responses : Option JValue) :
    List (String × JValue) :=
  let base : List (String × JValue) :=
    [ ("run_id", JValue.jstr run_id),
      ("condition", JValue.jstr condition),
      ("replicate", JValue.jint replicate),
      ("round_index", JValue.jint round_index),
      ("agent_a_action", JValue.jstr agent_a_action.value),
      ("agent_b_action", JValue.jstr agent_b_action.value),
      ("agent_a_payoff", JValue.jint agent_a_payoff),
      ("agent_b_payoff", JValue.jint agent_b_payoff),
      ("agent_a_cum_payoff", JValue.jint agent_a_cum_payoff),
      ("agent_b_cum_payoff", JValue.jint agent_b_cum_payoff),
      ("horizon_type", JValue.jstr horizon_type),
      ("fixed_n", match fixed_n with | some n => JValue.jint n | none => JValue.null),
      ("stop_prob", match stop_prob with | some q => JValue.jrat q | none => JValue.null),
      ("timestamp_utc", JValue.jstr timestamp_utc) ]
  let withPrompts :=
    match prompts with
    | some v => base ++ [("prompts", v)]
    | none => base
  match raw_responses with
  | some v => withPrompts ++ [("raw_responses", v)]
  | none => withPrompts

/-! ## Single-game runner (`runners/run_experiment.py`) -/

/-- An agent behind the `{reset, act}` contract: an initial (post-reset)
state and a step function. -/
structure AgentImpl (σ : Type) where
  init : σ
  act : σ → Observation → Action × σ

/-- A horizon behind the `{reset, should_stop, horizon_type, total_rounds}`
contract. -/
structure HorizonImpl (η : Type) where
  init : η
  should_stop : η → Nat → Bool × η
  horizon_type : String
  total_rounds : Option Nat

/-- The round loop of `run_single_game`, with explicit fuel: probe the
horizon, build both observations, query both agents, look up payoffs,
update running totals, append the round record and emit the log record. -/
def gameLoop {σa σb η : Type} (A : AgentImpl σa) (B : AgentImpl σb)
    (pm : PayoffMatrix) (H : HorizonImpl η) (tcfg : TranscriptCfg)
    (run_id condition : String) (replicate : Nat) (stop_prob_cfg : Rat)
    (timestamp : String) :
    Nat → σa → σb → η → List RoundResult → List (List (String × JValue)) →
      Int → Int → Nat → List RoundResult × List (List (String × JValue))
  | 0, _, _, _, rounds, logRecs, _, _, _ => (rounds, logRecs)
  | fuel + 1, sa, sb, hs, rounds, logRecs, cum_a, cum_b, round_index =>
    match H.should_stop hs round_index with
    | (true, _) => (rounds, logRecs)
    | (false, hs2) =>
      let obs_a := build_observation tcfg rounds (round_index + 1) true
      let obs_b := build_observation tcfg rounds (round_index + 1) false
      let (action_a, sa2) := A.act sa obs_a
      let (action_b, sb2) := B.act sb obs_b
      let (payoff_a, payoff_b) := pm.get_payoffs action_a action_b
      let cum_a2 := cum_a + payoff_a
      let cum_b2 := cum_b + payoff_b
      let result : RoundResult :=
        ⟨round_index, action_a, action_b, payoff_a, payoff_b, cum_a2, cum_b2⟩
      let logRec := log_round run_id condition replicate round_index
        action_a action_b payoff_a payoff_b cum_a2 cum_b2 H.horizon_type
        (if H.horizon_type = "fixed" then H.total_rounds else none)
        (if H.horizon_type = "geometric" then some stop_prob_cfg else none)
        timestamp none none
      gameLoop A B pm H tcfg run_id condition replicate stop_prob_cfg timestamp
        fuel sa2 sb2 hs2 (rounds ++ [result]) (logRecs ++ [logRec])
        cum_a2 cum_b2 (round_index + 1)

/-- `run_single_game`: reset agents, transcript and horizon, then run the
round loop from round 0 with zero cumulative payoffs.  Returns the round
records and the emitted log records. -/
def run_single_game {σa σb η : Type} (A : AgentImpl σa) (B : AgentImpl σb)
    (pm : PayoffMatrix) (H : HorizonImpl η) (history_window : Nat)
    (run_id condition : String) (replicate : Nat) (stop_prob_cfg : Rat)
    (timestamp : String) (fuel : Nat) :
    List RoundResult × List (List (String × JValue)) :=
  let tcfg : TranscriptCfg :=
    { history_window := history_window
      payoff_matrix := pm
      horizon_type := H.horizon_type
      total_rounds := H.total_rounds }
  gameLoop A B pm H tcfg run_id condition replicate stop_prob_cfg timestamp
    fuel A.init B.init H.init [] [] 0 0 0

/-- `FixedHorizon`: stop iff `round_index >= n_rounds`; stateless. -/
def FixedHorizon (n_rounds : Nat) : HorizonImpl Unit :=
  ⟨(), fun s round_index => (decide (n_rounds ≤ round_index), s),
   "fixed", some n_rounds⟩

/-- `GeometricHorizon` packaged behind the horizon contract. -/
def GeometricHorizon (stream : Option Int → Nat → Rat) (stop_prob : Rat)
    (seed : Option Int) (max_rounds : Nat) : HorizonImpl GeometricHorizonState :=
  ⟨GeometricHorizonState.init stop_prob seed max_rounds,
   fun g i => GeometricHorizonState.should_stop stream g i,
   "geometric", none⟩

/-! ## Policy agents (`agents/policy.py`) -/

/-- `ALLC`: always cooperate. -/
def ALLC : AgentImpl Unit := ⟨(), fun s _ => (Action.C, s)⟩

/-- `ALLD`: always defect. -/
def ALLD : AgentImpl Unit := ⟨(), fun s _ => (Action.D, s)⟩

/-- `TFT.act`: cooperate with empty history, else copy the opponent action
of the most recent history entry. -/
def TFT : AgentImpl Unit :=
  ⟨(), fun s obs =>
    (match obs.history.getLast? with
     | none => Action.C
     | some h => h.2.1, s)⟩

/-- The scan inside `GRIM.act`: does any history entry show a past
opponent defection? -/
def hasOppD (obs : Observation) : Bool :=
  obs.history.any (fun h => decide (h.2.1 = Action.D))

/-- `GRIM.act` on the triggered bit: defect forever once triggered, trigger
on any past opponent defection in the observed history. -/
def GRIM_act (triggered : Bool) (obs : Observation) : Action × Bool :=
  if triggered then (Action.D, true)
  else if hasOppD obs then (Action.D, true)
  else (Action.C, false)

/-- `GRIM` packaged behind the agent contract (reset state: untriggered). -/
def GRIM : AgentImpl Bool := ⟨false, GRIM_act⟩

/-- Feed a GRIM agent a sequence of observations within one game,
collecting the returned actions. -/
def grimActions (triggered : Bool) : List Observation → List Action
  | [] => []
  | obs :: rest =>
    (GRIM_act triggered obs).1 :: grimActions (GRIM_act triggered obs).2 rest

/-! ## Strict output parsing with retry (`core/parse.py`) -/

/-- ASCII whitespace as stripped by Python `str.strip`. -/
def isPySpace (c : Char) : Bool :=
  c = ' ' || c = '\t' || c = '\n' || c = '\r' || c = '\x0b' || c = '\x0c'

/-- Python `str.strip`: drop leading and trailing whitespace. -/
def str_strip (s : String) : String :=
  ⟨((s.data.dropWhile isPySpace).reverse.dropWhile isPySpace).reverse⟩

/-- Python `str.upper` restricted to ASCII, character by character. -/
def str_upper (s : String) : String :=
  ⟨s.data.map Char.toUpper⟩

/-- `OutputParser.parse`: strip surrounding whitespace, upper-case, and
accept exactly "C" or "D". -/
def parse_action (raw : String) : Option Action :=
  let cleaned := str_upper (str_strip raw)
  if cleaned = "C" then some Action.C
  else if cleaned = "D" then some Action.D
  else none

/-- `ParseAttempt`. -/
structure ParseAttempt where
  raw_output : String
  parsed_action : Option Action
  success : Bool
  error_message : Option String
deriving DecidableEq, Repr

/-- `OutputParser.try_parse`. -/
def try_parse (raw : String) : ParseAttempt :=
  match parse_action raw with
  | some a => ⟨raw, some a, true, none⟩
  | none => ⟨raw, none, false, some "Invalid output. Expected C or D."⟩

/-- `RetryParser.CORRECTION_PROMPT`. -/
def CORRECTION_PROMPT : String :=
  "Your previous response was invalid. Please respond with ONLY a single character: C or D. No explanation, no punctuation, just C or D."

/-- The retry loop of `RetryParser.parse_with_retry`: up to `n` more
attempts, each from a fresh callback output; `k` counts callback
invocations made so far.  Returns the parsed action (`none` when all
attempts failed, where the Python raises `ParseError`), the recorded
attempts and the number of callback invocations. -/
def retryLoop (callback : Nat → String) :
    Nat → Nat → List ParseAttempt → Option Action × List ParseAttempt × Nat
  | 0, k, attempts => (none, attempts, k)
  | n + 1, k, attempts =>
    let out := callback k
    let att := try_parse out
    if att.success then (att.parsed_action, attempts ++ [att], k + 1)
    else retryLoop callback n (k + 1) (attempts ++ [att])

/-- `RetryParser.parse_with_retry`: first attempt on the initial output,
then the bounded retry loop. -/
def parse_with_retry (max_retries : Nat) (initial_output : String)
    (callback : Nat → String) : Option Action × List ParseAttempt × Nat :=
  let att := try_parse initial_output
  if att.success then (att.parsed_action, [att], 0)
  else retryLoop callback max_retries 0 [att]

/-! ## LLM agent (`agents/llm.py`)

The prompt templates are opaque here: `round_prompt` stands for the result
of `_build_round_prompt`, and the completion adapter is a pure function of
the invocation index within one `act` call. -/

/-- Outcome of one `LLMAgent.act` call: the returned action string, the
parse-attempt trail, the trail of adapter invocations as
`(system, prompt, response)` triples, and the `last_prompts` /
`last_raw_response` properties after the call. -/
structure ActResult where
  returned : String
  attempts : List ParseAttempt
  invocations : List (String × String × String)
  last_prompts : String × String
  last_raw_response : Option String
deriving DecidableEq, Repr

/-- `LLMAgent.act`: set `last_prompts` to the original pair, invoke the
adapter, parse with retries where each retry re-invokes the adapter on the
round prompt concatenated with the correction prompt, updating
`last_raw_response` on every completion; fall back to "C" when parsing
failed everywhere. -/
def LLMAgent.act (max_retries : Nat) (system_prompt round_prompt : String)
    (provider : Nat → String) : ActResult :=
  let retry_prompt := round_prompt ++ "\n\n" ++ CORRECTION_PROMPT
  let response := provider 0
  let pr := parse_with_retry max_retries response (fun k => provider (k + 1))
  let ncb := pr.2.2
  let invocations :=
    (system_prompt, round_prompt, response) ::
      (List.range ncb).map (fun k => (system_prompt, retry_prompt, provider (k + 1)))
  let last_raw := if ncb = 0 then response else provider ncb
  let returned :=
    match pr.1 with
    | some a => a.value
    | none => "C"
  { returned := returned
    attempts := pr.2.1
    invocations := invocations
    last_prompts := (system_prompt, round_prompt)
    last_raw_response := some last_raw }

/-! ## Metrics (`core/metrics.py`) -/

/-- `compute_cooperation_rate`: fraction of C actions, 0 on empty input. -/
def compute_cooperation_rate (actions : List Action) : Rat :=
  if actions.length = 0 then 0
  else ((actions.countP (fun a => decide (a = Action.C)) : Nat) : Rat) /
    ((actions.length : Nat) : Rat)

/-- `compute_cooperation_rate_over_time`: at index `i`, joint C count over
rounds `0..i` divided by `2*(i+1)`. -/
def compute_cooperation_rate_over_time (agent_a_actions agent_b_actions : List Action) :
    List Rat :=
  (List.range (min agent_a_actions.length agent_b_actions.length)).map (fun i =>
    let a_coops := (agent_a_actions.take (i + 1)).countP (fun x => decide (x = Action.C))
    let b_coops := (agent_b_actions.take (i + 1)).countP (fun x => decide (x = Action.C))
    (((a_coops + b_coops : Nat)) : Rat) / (((2 * (i + 1) : Nat)) : Rat))

/-- `compute_retaliation_rate`: the loop over `t in range(1, len(my))`
counting opponent defections at `t-1` and own defections at `t` given one. -/
def compute_retaliation_rate (my_actions opponent_actions : List Action) :
    Option Rat :=
  if my_actions.length < 2 then none
  else
    let ts := List.range' 1 (my_actions.length - 1)
    let opponent_defects :=
      (ts.filter (fun t =>
        decide (opponent_actions.getD (t - 1) Action.C = Action.D))).length
    let defect_after_defect :=
      (ts.filter (fun t =>
        decide (opponent_actions.getD (t - 1) Action.C = Action.D ∧
          my_actions.getD t Action.C = Action.D))).length
    if opponent_defects = 0 then none
    else some ((defect_after_defect : Rat) / (opponent_defects : Rat))

/-- `compute_forgiveness_rate`: as retaliation, counting own cooperations. -/
def compute_forgiveness_rate (my_actions opponent_actions : List Action) :
    Option Rat :=
  if my_actions.length < 2 then none
  else
    let ts := List.range' 1 (my_actions.length - 1)
    let opponent_defects :=
      (ts.filter (fun t =>
        decide (opponent_actions.getD (t - 1) Action.C = Action.D))).length
    let coop_after_defect :=
      (ts.filter (fun t =>
        decide (opponent_actions.getD (t - 1) Action.C = Action.D ∧
          my_actions.getD t Action.C = Action.C))).length
    if opponent_defects = 0 then none
    else some ((coop_after_defect : Rat) / (opponent_defects : Rat))

/-- `compute_time_to_collapse`: first window start whose joint cooperation
rate over the next `k` rounds is at most the threshold. -/
def compute_time_to_collapse (agent_a_actions agent_b_actions : List Action)
    (k : Nat) (threshold : Rat) : Option Nat :=
  let n := agent_a_actions.length
  if n < k then none
  else
    (List.range (n - k + 1)).find? (fun t =>
      let window_a := (agent_a_actions.drop t).take k
      let window_b := (agent_b_actions.drop t).take k
      let total_coops := window_a.countP (fun x => decide (x = Action.C)) +
        window_b.countP (fun x => decide (x = Action.C))
      decide (((total_coops : Nat) : Rat) / (((2 * k : Nat)) : Rat) ≤ threshold))

/-- `ConditionMetrics`: one aggregates-table row. -/
structure ConditionMetrics where
  condition : String
  replicate : Nat
  total_rounds : Nat
  agent_a_cooperation_rate : Rat
  agent_b_cooperation_rate : Rat
  overall_cooperation_rate : Rat
  cooperation_rate_over_time : List Rat
  agent_a_retaliation_rate : Option Rat
  agent_b_retaliation_rate : Option Rat
  agent_a_forgiveness_rate : Option Rat
  agent_b_forgiveness_rate : Option Rat
  agent_a_total_payoff : Int
  agent_b_total_payoff : Int
  exploitability_gap_a : Int
  exploitability_gap_b : Int
  time_to_collapse : Option Nat
deriving DecidableEq, Repr

/-- `compute_metrics_for_replicate`. -/
def compute_metrics_for_replicate (rounds : List RoundResult)
    (condition : String) (replicate : Nat) (collapse_k : Nat)
    (collapse_threshold : Rat) : ConditionMetrics :=
  let agent_a_actions := rounds.map (fun r => r.agent_a_action)
  let agent_b_actions := rounds.map (fun r => r.agent_b_action)
  let a_coop_rate := compute_cooperation_rate agent_a_actions
  let b_coop_rate := compute_cooperation_rate agent_b_actions
  let a_total := ((rounds.getLast?).map (fun r => r.agent_a_cum_payoff)).getD 0
  let b_total := ((rounds.getLast?).map (fun r => r.agent_b_cum_payoff)).getD 0
  { condition := condition
    replicate := replicate
    total_rounds := rounds.length
    agent_a_cooperation_rate := a_coop_rate
    agent_b_cooperation_rate := b_coop_rate
    overall_cooperation_rate := (a_coop_rate + b_coop_rate) / 2
    cooperation_rate_over_time :=
      compute_cooperation_rate_over_time agent_a_actions agent_b_actions
    agent_a_retaliation_rate :=
      compute_retaliation_rate agent_a_actions agent_b_actions
    agent_b_retaliation_rate :=
      compute_retaliation_rate agent_b_actions agent_a_actions
    agent_a_forgiveness_rate :=
      compute_forgiveness_rate agent_a_actions agent_b_actions
    agent_b_forgiveness_rate :=
      compute_forgiveness_rate agent_b_actions agent_a_actions
    agent_a_total_payoff := a_total
    agent_b_total_payoff := b_total
    exploitability_gap_a := b_total - a_total
    exploitability_gap_b := a_total - b_total
    time_to_collapse :=
      compute_time_to_collapse agent_a_actions agent_b_actions
        collapse_k collapse_threshold }

/-! ## Aggregation (`storage/aggregate.py`)

The aggregates table is modelled as its list of rows in row order, so two
tables are byte-identical iff the lists are equal.  A run is modelled as
the list of its games in execution order; `rounds.jsonl` rows carry the
keys the aggregator reads. -/

/-- One parsed `rounds.jsonl` row, restricted to the fields the aggregator
reads. -/
structure LogRow where
  condition : String
  replicate : Nat
  result : RoundResult
deriving DecidableEq, Repr

/-- One completed game of a run: its condition, replicate and round
records in round order. -/
structure GameRecord where
  condition : String
  replicate : Nat
  rounds : List RoundResult
deriving DecidableEq, Repr

/-- The grouping key of a game. -/
def GameRecord.key (g : GameRecord) : String × Nat := (g.condition, g.replicate)

/-- The `rounds.jsonl` content of a run: each game appends its rows in
round order. -/
def eventLog (run : List GameRecord) : List LogRow :=
  run.flatMap (fun g => g.rounds.map (fun r => ⟨g.condition, g.replicate, r⟩))

/-- The aggregates table written at the end of `run_experiment`: one
metrics row per game, in execution order. -/
def run_aggregates (run : List GameRecord) (collapse_k : Nat)
    (collapse_threshold : Rat) : List ConditionMetrics :=
  run.map (fun g =>
    compute_metrics_for_replicate g.rounds g.condition g.replicate
      collapse_k collapse_threshold)

/-- Append a row to its group, creating the group at the end on first
occurrence (Python dict insertion order). -/
def addToGroup (gs : List ((String × Nat) × List LogRow)) (k : String × Nat)
    (r : LogRow) : List ((String × Nat) × List LogRow) :=
  match gs with
  | [] => [(k, [r])]
  | (k2, rs) :: t =>
    if k = k2 then (k2, rs ++ [r]) :: t else (k2, rs) :: addToGroup t k r

/-- One step of the grouping fold. -/
def groupStep (gs : List ((String × Nat) × List LogRow)) (r : LogRow) :
    List ((String × Nat) × List LogRow) :=
  addToGroup gs (r.condition, r.replicate) r

/-- Group log rows by `(condition, replicate)`. -/
def groupRows (rows : List LogRow) : List ((String × Nat) × List LogRow) :=
  rows.foldl groupStep []

/-- Stable insertion into a sorted list (model of Python `sorted`). -/
def orderedInsert {α : Type} (le : α → α → Bool) (a : α) : List α → List α
  | [] => [a]
  | b :: t => if le a b then a :: b :: t else b :: orderedInsert le a t

/-- Stable insertion sort (model of Python `sorted` / `list.sort`). -/
def insertionSort {α : Type} (le : α → α → Bool) : List α → List α
  | [] => []
  | a :: t => orderedInsert le a (insertionSort le t)

/-- Python tuple order on `(condition, replicate)` keys. -/
def keyLe (k1 k2 : String × Nat) : Bool :=
  decide (k1.1 < k2.1) || (decide (k1.1 = k2.1) && decide (k1.2 ≤ k2.2))

/-- `list.sort(key=round_index)` comparison on log rows. -/
def rowLe (r1 r2 : LogRow) : Bool :=
  decide (r1.result.round_index ≤ r2.result.round_index)

/-- `recompute_aggregates`: group the log rows by `(condition, replicate)`,
iterate groups in sorted key order, sort each group by round index and
recompute its metrics row. -/
def recompute_aggregates (rows : List LogRow) (collapse_k : Nat)
    (collapse_threshold : Rat) : List ConditionMetrics :=
  let grouped := groupRows rows
  let sortedGroups := insertionSort (fun g1 g2 => keyLe g1.1 g2.1) grouped
  sortedGroups.map (fun g =>
    let group_rounds := insertionSort rowLe g.2
    compute_metrics_for_replicate (group_rounds.map (fun r => r.result))
      g.1.1 g.1.2 collapse_k collapse_threshold)

/-! ## Auxiliary definitions used by the statements -/

/-- Lookup of a field value in a JSON record. -/
def jlookup (k : String) : List (String × JValue) → Option JValue
  | [] => none
  | (k2, v) :: t => if k = k2 then some v else jlookup k t

/-- JSON encoding of an optional integer (Python `None` becomes null). -/
def jsonOfOptNat : Option Nat → JValue
  | some n => JValue.jint n
  | none => JValue.null

/-- Sum of agent-a per-round payoffs of a list of round records. -/
def sumPayoffsA (l : List RoundResult) : Int :=
  (l.map (fun r => r.agent_a_payoff)).sum

/-- Sum of agent-b per-round payoffs of a list of round records. -/
def sumPayoffsB (l : List RoundResult) : Int :=
  (l.map (fun r => r.agent_b_payoff)).sum

/-- The cumulative-payoff invariant over a list of round records: at each
position, the stored cumulative payoffs equal the sums of the per-round
payoffs up to and including that position. -/
def cumConsistent (l : List RoundResult) : Prop :=
  ∀ i r0, l.get? i = some r0 →
    r0.agent_a_cum_payoff = sumPayoffsA (l.take (i + 1)) ∧
    r0.agent_b_cum_payoff = sumPayoffsB (l.take (i + 1))

/-- A two-condition run whose condition names are in reverse sorted order:
condition "z" (ALLD vs ALLD) is executed before condition "a"
(ALLC vs ALLC), each with one replicate of a 1-round fixed horizon. -/
def reversedRun : List GameRecord :=
  [ ⟨"z", 0, (run_single_game ALLD ALLD defaultPayoffMatrix (FixedHorizon 1)
      10 "r" "z" 0 (2 / 100) "t" 3).1⟩,
    ⟨"a", 0, (run_single_game ALLC ALLC defaultPayoffMatrix (FixedHorizon 1)
      10 "r" "a" 0 (2 / 100) "t" 3).1⟩ ]

/-- The same two games with the conditions in sorted order. -/
def sortedRun : List GameRecord :=
  [ ⟨"a", 0, (run_single_game ALLC ALLC defaultPayoffMatrix (FixedHorizon 1)
      10 "r" "a" 0 (2 / 100) "t" 3).1⟩,
    ⟨"z", 0, (run_single_game ALLD ALLD defaultPayoffMatrix (FixedHorizon 1)
      10 "r" "z" 0 (2 / 100) "t" 3).1⟩ ]

/-- A draw stream whose first uniform sample is `1/2` and whose later
samples are `0`: with `stop_prob = 1/2` the first Bernoulli draw is a
non-stop and the second is a stop, matching the CPython Mersenne-Twister
draws for `seed=0` with `stop_prob = 0.8` (0.8444... then 0.7579...). -/
def geomCexStream : Option Int → Nat → Rat :=
  fun _ n => if n = 0 then 1 / 2 else 0

/-- A first-round observation with empty history. -/
def obsNoD : Observation :=
  ⟨1, [], 0, 0, defaultPayoffMatrix, "fixed", some 10⟩

/-- An observation whose history shows one opponent defection. -/
def obsWithD : Observation :=
  ⟨2, [(Action.C, Action.D, 0, 5)], 0, 5, defaultPayoffMatrix, "fixed", some 10⟩

/-- Boolean chain predicate: every adjacent pair satisfies `le`. -/
def chainB {α : Type} (le : α → α → Bool) : List α → Bool
  | [] => true
  | [_] => true
  | a :: b :: t => le a b && chainB le (b :: t)

/-! # Theorems -/

/-- Claim C1: evaluating `GeometricHorizon.should_stop` on a draw stream
whose first Bernoulli sample does not stop and whose second does (as
happens for `GeometricHorizon(stop_prob=0.8, seed=0)` under CPython):
probing the same round index 0 twice with no intervening reset returns
`false` and then `true`, because a `false` answer is not latched and the
second probe consumes a fresh draw.  This contradicts the claimed
idempotence of repeated calls at the same index. -/
theorem geometric_should_stop_not_idempotent :
    (GeometricHorizonState.should_stop geomCexStream
      (GeometricHorizonState.init (1 / 2) (some 0) 10000) 0).1 = false ∧
    (GeometricHorizonState.should_stop geomCexStream
      (GeometricHorizonState.should_stop geomCexStream
        (GeometricHorizonState.init (1 / 2) (some 0) 10000) 0).2 0).1 = true := by
  with_unfolding_all decide

/-- Claim C4: in TFT (agent a) versus ALLD (agent b) under a fixed
10-round horizon, round 0 has actions (C,D) with payoffs (0,5), rounds 1
through 9 have actions (D,D) with payoffs (1,1), the final cumulative
payoffs are (9, 14), and the cooperation rates are 1/10 for a and 0
for b. -/
theorem tft_vs_alld_fixed10 :
    (run_single_game TFT ALLD defaultPayoffMatrix (FixedHorizon 10) 10
      "r" "c" 0 (2 / 100) "t" 20).1 =
      [ ⟨0, Action.C, Action.D, 0, 5, 0, 5⟩,
        ⟨1, Action.D, Action.D, 1, 1, 1, 6⟩,
        ⟨2, Action.D, Action.D, 1, 1, 2, 7⟩,
        ⟨3, Action.D, Action.D, 1, 1, 3, 8⟩,
        ⟨4, Action.D, Action.D, 1, 1, 4, 9⟩,
        ⟨5, Action.D, Action.D, 1, 1, 5, 10⟩,
        ⟨6, Action.D, Action.D, 1, 1, 6, 11⟩,
        ⟨7, Action.D, Action.D, 1, 1, 7, 12⟩,
        ⟨8, Action.D, Action.D, 1, 1, 8, 13⟩,
        ⟨9, Action.D, Action.D, 1, 1, 9, 14⟩ ] ∧
    compute_cooperation_rate
      ((run_single_game TFT ALLD defaultPayoffMatrix (FixedHorizon 10) 10
        "r" "c" 0 (2 / 100) "t" 20).1.map (fun r => r.agent_a_action)) = 1 / 10 ∧
    compute_cooperation_rate
      ((run_single_game TFT ALLD defaultPayoffMatrix (FixedHorizon 10) 10
        "r" "c" 0 (2 / 100) "t" 20).1.map (fun r => r.agent_b_action)) = 0 := by
  with_unfolding_all decide

/-- Claim C3 counterexample: for a run whose two conditions are executed
in reverse-sorted name order ("z" before "a"), recomputing the aggregates
from the event log this run produced, with the same collapse parameters,
yields a table whose rows are in a different order than the table the run
wrote, hence not byte-identical. -/
theorem recompute_aggregates_reorders :
    recompute_aggregates (eventLog reversedRun) 10 (2 / 10) ≠
      run_aggregates reversedRun 10 (2 / 10) := by
  with_unfolding_all decide

/-- Claim C6 counterexample: for the equal-length action lists [C,C] (own)
and [C,D] (opponent) the length is not below 2 and the opponent did
defect, yet `compute_retaliation_rate` returns null, because the only
defection sits at the final index and therefore never precedes a round
`r ≥ 1`.  So "null exactly when length < 2 or the opponent never
defected" is false as stated. -/
theorem retaliation_null_despite_defection :
    ¬ (compute_retaliation_rate [Action.C, Action.C] [Action.C, Action.D] = none ↔
        ([Action.C, Action.C] : List Action).length < 2 ∨
          Action.D ∉ ([Action.C, Action.D] : List Action)) := by
  decide

/-- Claim C7 counterexample: the single event-log record of a fixed-horizon
game contains the field `stop_prob` (bound to a null value), so the
`stop_prob` field is not absent when `horizon_type` is "fixed". -/
theorem log_record_contains_null_stop_prob :
    ((run_single_game ALLC ALLD defaultPayoffMatrix (FixedHorizon 1) 10
      "r" "c" 0 (2 / 100) "t" 3).2.map
        (fun rec0 => decide (("stop_prob", JValue.null) ∈ rec0))) = [true] := by
  decide

/-- Claim C9 counterexample: when the adapter answers "maybe" and then
"C", `act` performs a retried invocation whose user prompt is the round
prompt plus the correction message, but `last_prompts` still holds the
original round prompt; so `last_prompts` differs from the prompt pair of
the most recent completion-adapter invocation of that call. -/
theorem last_prompts_not_most_recent :
    ((LLMAgent.act 2 "s" "r" (fun n => if n = 0 then "maybe" else "C")).invocations.getLast?.map
        (fun t => (t.1, t.2.1))) =
      some ("s", "r" ++ "\n\n" ++ CORRECTION_PROMPT) ∧
    (LLMAgent.act 2 "s" "r" (fun n => if n = 0 then "maybe" else "C")).last_prompts =
      ("s", "r") ∧
    some (LLMAgent.act 2 "s" "r" (fun n => if n = 0 then "maybe" else "C")).last_prompts ≠
      ((LLMAgent.act 2 "s" "r" (fun n => if n = 0 then "maybe" else "C")).invocations.getLast?.map
        (fun t => (t.1, t.2.1))) := by
  decide

/-- Seed preservation: drawing from a seeded RNG never changes the stored
seed. -/
theorem applyDraws_seed (stream : Option Int → Nat → Rat) :
    ∀ (k : Nat) (r : SeededRNG), (applyDraws stream k r).seed = r.seed
  | 0, _ => rfl
  | k + 1, r => applyDraws_seed stream k (SeededRNG.random stream r).2

/-- Claim C10: for a `SeededRNG` constructed with seed `s`, `reset` with
an absent seed restores the freshly-constructed state after any number of
draws (hence the subsequent draw sequence coincides with a fresh
`SeededRNG(s)`), and `GeometricHorizon.reset` with an absent seed likewise
restores a seeded horizon to its construction state. -/
theorem seeded_rng_reset_none_retains_seed
    (stream : Option Int → Nat → Rat) (s : Int) (k : Nat) (p : Rat)
    (mcap pos2 : Nat) (latch : Option Nat) :
    (applyDraws stream k (SeededRNG.init (some s))).reset none =
      SeededRNG.init (some s) ∧
    (∀ n, applyDraws stream n
        ((applyDraws stream k (SeededRNG.init (some s))).reset none) =
      applyDraws stream n (SeededRNG.init (some s))) ∧
    GeometricHorizonState.reset ⟨p, mcap, ⟨some s, pos2⟩, latch⟩ none =
      GeometricHorizonState.init p (some s) mcap := by
  have h1 : (applyDraws stream k (SeededRNG.init (some s))).reset none =
      SeededRNG.init (some s) := by
    simp [SeededRNG.reset, applyDraws_seed, SeededRNG.init]
  exact ⟨h1, fun n => by rw [h1], rfl⟩

/-- Appending one round to a list adds its payoff to the agent-a sum. -/
theorem sumPayoffsA_append (l : List RoundResult) (r : RoundResult) :
    sumPayoffsA (l ++ [r]) = sumPayoffsA l + r.agent_a_payoff := by
  simp [sumPayoffsA]

/-- Appending one round to a list adds its payoff to the agent-b sum. -/
theorem sumPayoffsB_append (l : List RoundResult) (r : RoundResult) :
    sumPayoffsB (l ++ [r]) = sumPayoffsB l + r.agent_b_payoff := by
  simp [sumPayoffsB]

/-- The cumulative-payoff invariant survives appending a round whose
cumulative fields extend the current sums. -/
theorem cumConsistent_append (l : List RoundResult) (r : RoundResult)
    (hl : cumConsistent l)
    (ha : r.agent_a_cum_payoff = sumPayoffsA l + r.agent_a_payoff)
    (hb : r.agent_b_cum_payoff = sumPayoffsB l + r.agent_b_payoff) :
    cumConsistent (l ++ [r]) := by
  intro i r0 h
  rcases Nat.lt_or_ge i l.length with hi | hi
  · rw [List.get?_append hi] at h
    have h2 := hl i r0 h
    rw [List.take_append_of_le_length (by omega)]
    exact h2
  · rw [List.get?_append_right hi] at h
    rcases Nat.lt_or_ge i (l.length + 1) with hi2 | hi2
    · have hil : i = l.length := by omega
      subst hil
      simp only [Nat.sub_self, List.get?] at h
      have hr : r = r0 := by injection h
      subst hr
      have htake : (l ++ [r]).take (l.length + 1) = l ++ [r] := by
        apply List.take_of_length_le
        simp
      rw [htake, sumPayoffsA_append, sumPayoffsB_append]
      exact ⟨ha, hb⟩
    · have : 1 ≤ i - l.length := by omega
      rcases Nat.exists_eq_add_of_le this with ⟨m, hm⟩
      rw [hm, Nat.add_comm] at h
      simp at h

/-- The round loop preserves the cumulative-payoff invariant on its round
accumulator. -/
theorem gameLoop_cumConsistent {σa σb η : Type} (A : AgentImpl σa)
    (B : AgentImpl σb) (pm : PayoffMatrix) (H : HorizonImpl η)
    (tcfg : TranscriptCfg) (run_id condition : String) (replicate : Nat)
    (sp : Rat) (ts : String) :
    ∀ (fuel : Nat) (sa : σa) (sb : σb) (hs : η) (rounds : List RoundResult)
      (logRecs : List (List (String × JValue))) (cum_a cum_b : Int) (ri : Nat),
      cumConsistent rounds → cum_a = sumPayoffsA rounds →
      cum_b = sumPayoffsB rounds →
      cumConsistent (gameLoop A B pm H tcfg run_id condition replicate sp ts
        fuel sa sb hs rounds logRecs cum_a cum_b ri).1 := by
  intro fuel
  induction fuel with
  | zero =>
    intro sa sb hs rounds logRecs cum_a cum_b ri hc _ _
    exact hc
  | succ n ih =>
    intro sa sb hs rounds logRecs cum_a cum_b ri hc hca hcb
    rw [gameLoop]
    split
    · exact hc
    · apply ih
      · apply cumConsistent_append _ _ hc
        · simp [hca]
        · simp [hcb]
      · rw [sumPayoffsA_append, hca]
      · rw [sumPayoffsB_append, hcb]

/-- Claim C2: for every game run by `run_single_game` (any agents, payoff
matrix and horizon), each recorded round carries cumulative payoffs equal
to the sums of the per-round payoffs of rounds 0..r inclusive, for both
agents. -/
theorem run_single_game_cum_payoffs {σa σb η : Type} (A : AgentImpl σa)
    (B : AgentImpl σb) (pm : PayoffMatrix) (H : HorizonImpl η)
    (history_window : Nat) (run_id condition : String) (replicate : Nat)
    (sp : Rat) (ts : String) (fuel : Nat) (i : Nat) (r0 : RoundResult)
    (h : (run_single_game A B pm H history_window run_id condition replicate
      sp ts fuel).1.get? i = some r0) :
    r0.agent_a_cum_payoff = sumPayoffsA
      ((run_single_game A B pm H history_window run_id condition replicate
        sp ts fuel).1.take (i + 1)) ∧
    r0.agent_b_cum_payoff = sumPayoffsB
      ((run_single_game A B pm H history_window run_id condition replicate
        sp ts fuel).1.take (i + 1)) := by
  have hempty : cumConsistent [] := by
    intro i r0 h
    simp at h
  exact gameLoop_cumConsistent A B pm H _ run_id condition replicate sp ts
    fuel A.init B.init H.init [] [] 0 0 0 hempty rfl rfl i r0 h

/-- Witness for claim C2: the 2-round ALLD-vs-ALLC fixed-horizon game, at
round index 1. -/
theorem run_single_game_cum_payoffs_witness :
    (run_single_game ALLD ALLC defaultPayoffMatrix (FixedHorizon 2) 10
      "r" "c" 0 (2 / 100) "t" 5).1.get? 1 =
      some ⟨1, Action.D, Action.C, 5, 0, 10, 0⟩ ∧
    (⟨1, Action.D, Action.C, 5, 0, 10, 0⟩ : RoundResult).agent_a_cum_payoff =
      sumPayoffsA ((run_single_game ALLD ALLC defaultPayoffMatrix
        (FixedHorizon 2) 10 "r" "c" 0 (2 / 100) "t" 5).1.take 2) := by
  refine ⟨by with_unfolding_all decide, ?_⟩
  exact (run_single_game_cum_payoffs ALLD ALLC defaultPayoffMatrix
    (FixedHorizon 2) 10 "r" "c" 0 (2 / 100) "t" 5 1
    ⟨1, Action.D, Action.C, 5, 0, 10, 0⟩ (by with_unfolding_all decide)).1

/-- A failed parse yields the canonical failed attempt record. -/
theorem try_parse_of_fail (s : String) (h : parse_action s = none) :
    try_parse s = ⟨s, none, false, some "Invalid output. Expected C or D."⟩ := by
  simp [try_parse, h]

/-- Under an always-failing callback, the retry loop fails, records one
attempt per retry, and every recorded attempt is a failure. -/
theorem retryLoop_all_fail (callback : Nat → String)
    (hfail : ∀ n, parse_action (callback n) = none) :
    ∀ (n k : Nat) (acc : List ParseAttempt),
      (retryLoop callback n k acc).1 = none ∧
      (retryLoop callback n k acc).2.1.length = acc.length + n ∧
      (∀ a ∈ (retryLoop callback n k acc).2.1, a ∈ acc ∨ a.success = false) := by
  intro n
  induction n with
  | zero =>
    intro k acc
    exact ⟨rfl, rfl, fun a ha => Or.inl ha⟩
  | succ m ih =>
    intro k acc
    have hatt := try_parse_of_fail (callback k) (hfail k)
    rw [retryLoop, hatt]
    simp only [Bool.false_eq_true, if_false]
    rcases ih (k + 1)
        (acc ++ [⟨callback k, none, false, some "Invalid output. Expected C or D."⟩]) with
      ⟨h1, h2, h3⟩
    refine ⟨h1, by simp at h2; omega, fun a ha => ?_⟩
    rcases h3 a ha with hmem | hfalse
    · rcases List.mem_append.mp hmem with hin | hone
      · exact Or.inl hin
      · right
        have : a = ⟨callback k, none, false, some "Invalid output. Expected C or D."⟩ := by
          simpa using hone
        rw [this]
    · exact Or.inr hfalse

/-- Under an always-failing callback and a failing initial output,
`parse_with_retry` fails with `1 + max_retries` recorded attempts, all
failures. -/
theorem parse_with_retry_all_fail (max_retries : Nat) (initial : String)
    (callback : Nat → String) (h0 : parse_action initial = none)
    (hfail : ∀ n, parse_action (callback n) = none) :
    (parse_with_retry max_retries initial callback).1 = none ∧
    (parse_with_retry max_retries initial callback).2.1.length = 1 + max_retries ∧
    ∀ a ∈ (parse_with_retry max_retries initial callback).2.1,
      a.success = false := by
  have hatt := try_parse_of_fail initial h0
  rw [parse_with_retry, hatt]
  simp only [Bool.false_eq_true, if_false]
  rcases retryLoop_all_fail callback hfail max_retries 0
      [⟨initial, none, false, some "Invalid output. Expected C or D."⟩] with ⟨h1, h2, h3⟩
  refine ⟨h1, by simp at h2; omega, fun a ha => ?_⟩
  rcases h3 a ha with hmem | hfalse
  · have : a = ⟨initial, none, false, some "Invalid output. Expected C or D."⟩ := by
      simpa using hmem
    rw [this]
  · exact hfalse

/-- Claim C5: for an LLM agent whose completion adapter returns an
unparseable string on every call, `act` returns "C", and the
parse-attempt trail of that call has exactly `1 + max_retries` entries,
all marked as failures. -/
theorem llm_act_parse_fallback (max_retries : Nat)
    (system_prompt round_prompt : String) (provider : Nat → String)
    (hfail : ∀ n, parse_action (provider n) = none) :
    (LLMAgent.act max_retries system_prompt round_prompt provider).returned = "C" ∧
    (LLMAgent.act max_retries system_prompt round_prompt provider).attempts.length
      = 1 + max_retries ∧
    ∀ a ∈ (LLMAgent.act max_retries system_prompt round_prompt provider).attempts,
      a.success = false := by
  rcases parse_with_retry_all_fail max_retries (provider 0)
      (fun k => provider (k + 1)) (hfail 0) (fun n => hfail (n + 1)) with ⟨h1, h2, h3⟩
  simp only [LLMAgent.act]
  refine ⟨?_, h2, h3⟩
  rw [h1]

/-- Witness for claim C5: the adapter that always answers "maybe", with
`max_retries = 2`. -/
theorem llm_act_parse_fallback_witness :
    (∀ n : Nat, parse_action ((fun _ => "maybe") n) = none) ∧
    (LLMAgent.act 2 "sys" "round" (fun _ => "maybe")).returned = "C" ∧
    (LLMAgent.act 2 "sys" "round" (fun _ => "maybe")).attempts.length = 1 + 2 ∧
    ∀ a ∈ (LLMAgent.act 2 "sys" "round" (fun _ => "maybe")).attempts,
      a.success = false := by
  have hfail : ∀ n : Nat, parse_action ((fun _ => "maybe") n) = none :=
    fun _ => (by decide : parse_action "maybe" = none)
  rcases llm_act_parse_fallback 2 "sys" "round" (fun _ => "maybe") hfail with
    ⟨h1, h2, h3⟩
  exact ⟨hfail, h1, h2, h3⟩

/-- Indexing a replicate list below its length. -/
theorem replicate_get?_sm :
    ∀ (n k : Nat), k < n →
      (List.replicate n Action.D).get? k = some Action.D
  | n + 1, 0, _ => rfl
  | n + 1, k + 1, h => replicate_get?_sm n k (by omega)

/-- A triggered GRIM answers D to every observation. -/
theorem grimActions_triggered :
    ∀ l : List Observation,
      grimActions true l = List.replicate l.length Action.D
  | [] => rfl
  | obs :: rest => by
    simp [grimActions, GRIM_act, grimActions_triggered rest,
      List.replicate_succ]

/-- Once some observation at or before the current index showed an
opponent defection, GRIM answers D at the current index. -/
theorem grimActions_get?_D (l : List Observation) :
    ∀ (k i : Nat) (obs : Observation), l.get? i = some obs →
      hasOppD obs = true → i ≤ k → k < l.length →
      (grimActions false l).get? k = some Action.D := by
  induction l with
  | nil =>
    intro k i obs h _ _ _
    simp at h
  | cons o rest ih =>
    intro k i obs h hD hik hk
    by_cases h0 : hasOppD o
    · rw [show grimActions false (o :: rest) =
          Action.D :: List.replicate rest.length Action.D from by
        simp [grimActions, GRIM_act, h0, grimActions_triggered]]
      cases k with
      | zero => rfl
      | succ k2 =>
        have hk2 : k2 < rest.length := by
          simp at hk
          omega
        exact replicate_get?_sm rest.length k2 hk2
    · have hstep : grimActions false (o :: rest) =
          Action.C :: grimActions false rest := by
        simp [grimActions, GRIM_act, h0]
      cases i with
      | zero =>
        have hobs : o = obs := by simpa using h
        subst hobs
        exact absurd hD h0
      | succ i2 =>
        cases k with
        | zero => omega
        | succ k2 =>
          rw [hstep]
          have hk2 : k2 < rest.length := by
            simp at hk
            omega
          exact ih k2 i2 obs h hD (by omega) hk2

/-- Before any observed opponent defection, GRIM answers C. -/
theorem grimActions_get?_C (l : List Observation) :
    ∀ (i : Nat) (obs : Observation), l.get? i = some obs →
      (∀ (j : Nat) (obs2 : Observation), j ≤ i → l.get? j = some obs2 →
        hasOppD obs2 = false) →
      (grimActions false l).get? i = some Action.C := by
  induction l with
  | nil =>
    intro i obs h _
    simp at h
  | cons o rest ih =>
    intro i obs h hall
    have h0 : hasOppD o = false := hall 0 o (Nat.zero_le i) rfl
    have hstep : grimActions false (o :: rest) =
        Action.C :: grimActions false rest := by
      simp [grimActions, GRIM_act, h0]
    rw [hstep]
    cases i with
    | zero => rfl
    | succ i2 =>
      exact ih i2 obs h
        (fun j obs2 hj hg => hall (j + 1) obs2 (by omega) hg)

/-- Claim C8: within one game (no intervening reset), once any observation
given to GRIM shows a past opponent action D, every action GRIM returns
from that call onward is D; before any opponent D is observed, GRIM
returns C. -/
theorem grim_trigger_monotone (l : List Observation) :
    (∀ (i k : Nat) (obs : Observation), l.get? i = some obs →
      hasOppD obs = true → i ≤ k → k < l.length →
      (grimActions false l).get? k = some Action.D) ∧
    (∀ (i : Nat) (obs : Observation), l.get? i = some obs →
      (∀ (j : Nat) (obs2 : Observation), j ≤ i → l.get? j = some obs2 →
        hasOppD obs2 = false) →
      (grimActions false l).get? i = some Action.C) :=
  ⟨fun i k obs h hD hik hk => grimActions_get?_D l k i obs h hD hik hk,
   fun i obs h hall => grimActions_get?_C l i obs h hall⟩

/-- Witness for claim C8: the observation sequence [no-defection,
defection-observed, no-defection]: GRIM answers C at index 0 and D at
index 2. -/
theorem grim_trigger_monotone_witness :
    ([obsNoD, obsWithD, obsNoD].get? 1 = some obsWithD ∧
      hasOppD obsWithD = true) ∧
    (grimActions false [obsNoD, obsWithD, obsNoD]).get? 2 = some Action.D ∧
    (grimActions false [obsNoD, obsWithD, obsNoD]).get? 0 = some Action.C := by
  refine ⟨⟨rfl, by decide⟩, ?_, ?_⟩
  · exact (grim_trigger_monotone [obsNoD, obsWithD, obsNoD]).1 1 2 obsWithD
      rfl (by decide) (by omega) (by decide)
  · refine (grim_trigger_monotone [obsNoD, obsWithD, obsNoD]).2 0 obsNoD rfl ?_
    intro j obs2 hj hg
    have hj0 : j = 0 := by omega
    subst hj0
    have : obs2 = obsNoD := by
      simp at hg
      exact hg.symm
    subst this
    decide

/-- The parsed action recorded by `try_parse` is the parse result. -/
theorem try_parse_parsed (s : String) :
    (try_parse s).parsed_action = parse_action s := by
  cases h : parse_action s <;> simp [try_parse, h]

/-- `try_parse` fails exactly when the parse result is undefined. -/
theorem try_parse_success_false_iff (s : String) :
    (try_parse s).success = false ↔ parse_action s = none := by
  cases h : parse_action s <;> simp [try_parse, h]

/-- The retry loop either makes no callback invocation and fails, or its
result is the parse of the callback output of its final invocation. -/
theorem retryLoop_last (callback : Nat → String) :
    ∀ (n k : Nat) (acc : List ParseAttempt),
      ((retryLoop callback n k acc).2.2 = k ∧
        (retryLoop callback n k acc).1 = none) ∨
      (∃ j, k ≤ j ∧ (retryLoop callback n k acc).2.2 = j + 1 ∧
        (retryLoop callback n k acc).1 = parse_action (callback j)) := by
  intro n
  induction n with
  | zero =>
    intro k acc
    exact Or.inl ⟨rfl, rfl⟩
  | succ m ih =>
    intro k acc
    by_cases hs : (try_parse (callback k)).success = true
    · right
      refine ⟨k, Nat.le_refl k, ?_, ?_⟩
      · rw [retryLoop]
        simp [hs]
      · rw [retryLoop]
        simp [hs, try_parse_parsed]
    · have hs2 : (try_parse (callback k)).success = false := by simpa using hs
      have hnone : parse_action (callback k) = none :=
        (try_parse_success_false_iff (callback k)).mp hs2
      rw [retryLoop]
      simp only [hs2, Bool.false_eq_true, if_false]
      rcases ih (k + 1) (acc ++ [try_parse (callback k)]) with
        ⟨h1, h2⟩ | ⟨j, hj, h1, h2⟩
      · right
        exact ⟨k, Nat.le_refl k, h1, by rw [h2, hnone]⟩
      · right
        exact ⟨j, by omega, h1, h2⟩

/-- `parse_with_retry` either makes no callback invocation and returns the
parse of the initial output, or returns the parse of the output of its
final callback invocation. -/
theorem parse_with_retry_last (max_retries : Nat) (initial : String)
    (callback : Nat → String) :
    ((parse_with_retry max_retries initial callback).2.2 = 0 ∧
      (parse_with_retry max_retries initial callback).1 = parse_action initial) ∨
    (∃ j, (parse_with_retry max_retries initial callback).2.2 = j + 1 ∧
      (parse_with_retry max_retries initial callback).1 =
        parse_action (callback j)) := by
  by_cases hs : (try_parse initial).success = true
  · left
    rw [parse_with_retry]
    simp [hs, try_parse_parsed]
  · have hs2 : (try_parse initial).success = false := by simpa using hs
    have hnone : parse_action initial = none :=
      (try_parse_success_false_iff initial).mp hs2
    rw [parse_with_retry]
    simp only [hs2, Bool.false_eq_true, if_false]
    rcases retryLoop_last callback max_retries 0 [try_parse initial] with
      ⟨h1, h2⟩ | ⟨j, _, h1, h2⟩
    · left
      exact ⟨h1, by rw [h2, hnone]⟩
    · right
      exact ⟨j, h1, h2⟩

/-- The last element of a cons of a list with a final append. -/
theorem getLast?_cons_concat {α : Type} (x : α) (l : List α) (a : α) :
    (x :: (l ++ [a])).getLast? = some a := by
  rw [show x :: (l ++ [a]) = (x :: l) ++ [a] from rfl]
  exact List.getLast?_concat _

/-- Claim C9 amended: after any `act` call, `last_prompts` is the
system/user pair of the FIRST completion-adapter invocation of that call
(the original round prompt, even when retries re-invoked the adapter with
the correction-augmented prompt), and `last_raw_response` is the
completion text of the MOST RECENT invocation; the returned action is the
parse of that final completion when it parses, and the "C" fallback
otherwise. -/
theorem llm_act_last_fields (max_retries : Nat)
    (system_prompt round_prompt : String) (provider : Nat → String) :
    (LLMAgent.act max_retries system_prompt round_prompt provider).last_prompts =
      (system_prompt, round_prompt) ∧
    (LLMAgent.act max_retries system_prompt round_prompt provider).invocations.head? =
      some (system_prompt, round_prompt, provider 0) ∧
    ∃ final,
      (LLMAgent.act max_retries system_prompt round_prompt
        provider).invocations.getLast? = some final ∧
      (LLMAgent.act max_retries system_prompt round_prompt
        provider).last_raw_response = some final.2.2 ∧
      (LLMAgent.act max_retries system_prompt round_prompt provider).returned =
        (match parse_action final.2.2 with
         | some a => a.value
         | none => "C") := by
  rcases parse_with_retry_last max_retries (provider 0)
      (fun k => provider (k + 1)) with ⟨h0, hres⟩ | ⟨j, h0, hres⟩
  · refine ⟨rfl, rfl, (system_prompt, round_prompt, provider 0), ?_, ?_, ?_⟩
    · simp only [LLMAgent.act, h0]
      simp
    · simp only [LLMAgent.act, h0]
      simp
    · simp only [LLMAgent.act, hres]
  · refine ⟨rfl, rfl,
      (system_prompt, round_prompt ++ "\n\n" ++ CORRECTION_PROMPT,
        provider (j + 1)), ?_, ?_, ?_⟩
    · simp only [LLMAgent.act, h0]
      rw [List.range_succ, List.map_append]
      simp only [List.map_cons, List.map_nil]
      exact getLast?_cons_concat _ _ _
    · simp only [LLMAgent.act, h0]
      simp
    · simp only [LLMAgent.act, hres]

/-- For an in-bounds index, the `getD`-read used by the metrics loop sees
D exactly when the optional read does. -/
theorem getD_D_iff_get? (l : List Action) (n : Nat) (h : n < l.length) :
    (l.getD n Action.C = Action.D) ↔ l.get? n = some Action.D := by
  rw [List.getD_eq_getElem?_getD, List.getElem?_eq_getElem h,
    List.get?_eq_getElem?, List.getElem?_eq_getElem h]
  simp

/-- Claim C6 amended: for equal-length action lists,
`compute_retaliation_rate` returns null exactly when the length is below
2 or no round `r ≥ 1` has a preceding opponent action D (equivalently,
the opponent never defected strictly before the final round); otherwise
it returns the fraction, among rounds `r ≥ 1` whose preceding opponent
action (at `r-1`) was D, of rounds where the own action at `r` is D. -/
theorem compute_retaliation_rate_spec (my_actions opponent_actions : List Action)
    (hlen : my_actions.length = opponent_actions.length) :
    (compute_retaliation_rate my_actions opponent_actions = none ↔
      my_actions.length < 2 ∨
        ∀ t, 0 < t → t < my_actions.length →
          opponent_actions.get? (t - 1) ≠ some Action.D) ∧
    (∀ q, compute_retaliation_rate my_actions opponent_actions = some q →
      q = (((List.range' 1 (my_actions.length - 1)).filter (fun t =>
            decide (opponent_actions.get? (t - 1) = some Action.D ∧
              my_actions.get? t = some Action.D))).length : Rat) /
        (((List.range' 1 (my_actions.length - 1)).filter (fun t =>
            decide (opponent_actions.get? (t - 1) = some Action.D))).length : Rat)) := by
  by_cases hlt : my_actions.length < 2
  · constructor
    · rw [compute_retaliation_rate, if_pos hlt]
      simp [hlt]
    · intro q hq
      rw [compute_retaliation_rate, if_pos hlt] at hq
      exact absurd hq (by simp)
  · have hmem : ∀ t ∈ List.range' 1 (my_actions.length - 1),
        (0 < t ∧ t < my_actions.length) := by
      intro t ht
      have := List.mem_range'_1.mp ht
      omega
    have hcongr_den : (List.range' 1 (my_actions.length - 1)).filter (fun t =>
          decide (opponent_actions.getD (t - 1) Action.C = Action.D)) =
        (List.range' 1 (my_actions.length - 1)).filter (fun t =>
          decide (opponent_actions.get? (t - 1) = some Action.D)) := by
      apply List.filter_congr
      intro t ht
      rcases hmem t ht with ⟨h1, h2⟩
      have hb : t - 1 < opponent_actions.length := by omega
      simp only [decide_eq_decide]
      exact getD_D_iff_get? opponent_actions (t - 1) hb
    have hcongr_num : (List.range' 1 (my_actions.length - 1)).filter (fun t =>
          decide (opponent_actions.getD (t - 1) Action.C = Action.D ∧
            my_actions.getD t Action.C = Action.D)) =
        (List.range' 1 (my_actions.length - 1)).filter (fun t =>
          decide (opponent_actions.get? (t - 1) = some Action.D ∧
            my_actions.get? t = some Action.D)) := by
      apply List.filter_congr
      intro t ht
      rcases hmem t ht with ⟨h1, h2⟩
      have hb : t - 1 < opponent_actions.length := by omega
      simp only [decide_eq_decide]
      exact and_congr (getD_D_iff_get? opponent_actions (t - 1) hb)
        (getD_D_iff_get? my_actions t h2)
    rw [compute_retaliation_rate, if_neg hlt]
    simp only [hcongr_den, hcongr_num]
    constructor
    · by_cases hz : ((List.range' 1 (my_actions.length - 1)).filter (fun t =>
          decide (opponent_actions.get? (t - 1) = some Action.D))).length = 0
      · rw [if_pos hz]
        simp only [hlt, false_or, true_iff]
        intro t h1 h2
        have hnil := List.length_eq_zero.mp hz
        intro hD
        have htmem : t ∈ List.range' 1 (my_actions.length - 1) := by
          rw [List.mem_range'_1]
          omega
        have hmem2 : t ∈ (List.range' 1 (my_actions.length - 1)).filter
            (fun t => decide (opponent_actions.get? (t - 1) = some Action.D)) := by
          rw [List.mem_filter]
          exact ⟨htmem, decide_eq_true hD⟩
        rw [hnil] at hmem2
        simp at hmem2
      · rw [if_neg hz]
        simp only [hlt, false_or]
        constructor
        · intro h
          exact absurd h (by simp)
        · intro hall
          exfalso
          apply hz
          rw [List.length_eq_zero, List.filter_eq_nil]
          intro t ht
          rcases hmem t ht with ⟨h1, h2⟩
          simp only [decide_eq_true_eq]
          exact hall t h1 h2
    · intro q hq
      by_cases hz : ((List.range' 1 (my_actions.length - 1)).filter (fun t =>
          decide (opponent_actions.get? (t - 1) = some Action.D))).length = 0
      · rw [if_pos hz] at hq
        exact absurd hq (by simp)
      · rw [if_neg hz] at hq
        have := Option.some.inj hq
        rw [this.symm]

/-- Witness for claim C6 at `my = [C, D]`, `opponent = [D, C]`: the rate
is defined and equals the conditional fraction 1/1. -/
theorem compute_retaliation_rate_spec_witness :
    (([Action.C, Action.D] : List Action).length =
      ([Action.D, Action.C] : List Action).length) ∧
    compute_retaliation_rate [Action.C, Action.D] [Action.D, Action.C] =
      some 1 ∧
    ((1 : Rat) = (((List.range' 1
        (([Action.C, Action.D] : List Action).length - 1)).filter (fun t =>
          decide (([Action.D, Action.C] : List Action).get? (t - 1) =
              some Action.D ∧
            ([Action.C, Action.D] : List Action).get? t =
              some Action.D))).length : Rat) /
      (((List.range' 1
        (([Action.C, Action.D] : List Action).length - 1)).filter (fun t =>
          decide (([Action.D, Action.C] : List Action).get? (t - 1) =
            some Action.D))).length : Rat)) := by
  refine ⟨rfl, by with_unfolding_all decide, ?_⟩
  exact (compute_retaliation_rate_spec [Action.C, Action.D]
    [Action.D, Action.C] rfl).2 1 (by with_unfolding_all decide)

/-- The two optional fields of a `log_round` record are always present,
holding the JSON encoding of the optional arguments. -/
theorem jlookup_log_round (run_id condition : String)
    (replicate round_index : Nat) (aa ab : Action) (pa pb ca cb : Int)
    (ht : String) (fn : Option Nat) (sp : Option Rat) (ts : String)
    (pr rr : Option JValue) :
    jlookup "fixed_n" (log_round run_id condition replicate round_index
      aa ab pa pb ca cb ht fn sp ts pr rr) = some (jsonOfOptNat fn) ∧
    jlookup "stop_prob" (log_round run_id condition replicate round_index
      aa ab pa pb ca cb ht fn sp ts pr rr) =
      some (match sp with | some q => JValue.jrat q | none => JValue.null) := by
  cases pr <;> cases rr <;> cases fn <;> cases sp <;> exact ⟨rfl, rfl⟩

/-- Every record the round loop emits carries `fixed_n` and `stop_prob`
fields whose values are determined by the horizon type. -/
theorem gameLoop_log_fields {σa σb η : Type} (A : AgentImpl σa)
    (B : AgentImpl σb) (pm : PayoffMatrix) (H : HorizonImpl η)
    (tcfg : TranscriptCfg) (run_id condition : String) (replicate : Nat)
    (sp : Rat) (ts : String) :
    ∀ (fuel : Nat) (sa : σa) (sb : σb) (hs : η) (rounds : List RoundResult)
      (logRecs : List (List (String × JValue))) (cum_a cum_b : Int) (ri : Nat),
      (∀ rec0 ∈ logRecs,
        jlookup "fixed_n" rec0 = some (if H.horizon_type = "fixed"
          then jsonOfOptNat H.total_rounds else JValue.null) ∧
        jlookup "stop_prob" rec0 = some (if H.horizon_type = "geometric"
          then JValue.jrat sp else JValue.null)) →
      ∀ rec0 ∈ (gameLoop A B pm H tcfg run_id condition replicate sp ts
        fuel sa sb hs rounds logRecs cum_a cum_b ri).2,
        jlookup "fixed_n" rec0 = some (if H.horizon_type = "fixed"
          then jsonOfOptNat H.total_rounds else JValue.null) ∧
        jlookup "stop_prob" rec0 = some (if H.horizon_type = "geometric"
          then JValue.jrat sp else JValue.null) := by
  intro fuel
  induction fuel with
  | zero =>
    intro sa sb hs rounds logRecs cum_a cum_b ri hacc
    exact hacc
  | succ n ih =>
    intro sa sb hs rounds logRecs cum_a cum_b ri hacc
    rw [gameLoop]
    split
    · exact hacc
    · apply ih
      intro rec0 hrec
      rcases List.mem_append.mp hrec with hin | hone
      · exact hacc rec0 hin
      · have heq := List.mem_singleton.mp hone
        rw [heq]
        constructor
        · rw [(jlookup_log_round _ _ _ _ _ _ _ _ _ _ _ _ _ _ _ _).1]
          by_cases hft : H.horizon_type = "fixed" <;>
            simp [hft, jsonOfOptNat]
        · rw [(jlookup_log_round _ _ _ _ _ _ _ _ _ _ _ _ _ _ _ _).2]
          by_cases hgt : H.horizon_type = "geometric" <;> simp [hgt]

/-- Claim C7 amended: every event-log record emitted by a game contains
both the `fixed_n` and the `stop_prob` field; `fixed_n` holds the
horizon total round count when horizon_type is "fixed" and null
otherwise, and `stop_prob` holds the configured stop probability when
horizon_type is "geometric" and null otherwise — the inapplicable field
is present with a null value rather than absent. -/
theorem log_round_optional_fields {σa σb η : Type} (A : AgentImpl σa)
    (B : AgentImpl σb) (pm : PayoffMatrix) (H : HorizonImpl η)
    (history_window : Nat) (run_id condition : String) (replicate : Nat)
    (sp : Rat) (ts : String) (fuel : Nat) (rec0 : List (String × JValue))
    (hmem : rec0 ∈ (run_single_game A B pm H history_window run_id condition
      replicate sp ts fuel).2) :
    jlookup "fixed_n" rec0 = some (if H.horizon_type = "fixed"
      then jsonOfOptNat H.total_rounds else JValue.null) ∧
    jlookup "stop_prob" rec0 = some (if H.horizon_type = "geometric"
      then JValue.jrat sp else JValue.null) := by
  exact gameLoop_log_fields A B pm H _ run_id condition replicate sp ts fuel
    A.init B.init H.init [] [] 0 0 0 (by intro r hr; simp at hr) rec0 hmem

/-- Witness for claim C7 at the one-round ALLC-vs-ALLD fixed-horizon
game. -/
theorem log_round_optional_fields_witness :
    (log_round "r" "c" 0 0 Action.C Action.D 0 5 0 5 "fixed" (some 1) none
        "t" none none) ∈
      (run_single_game ALLC ALLD defaultPayoffMatrix (FixedHorizon 1) 10
        "r" "c" 0 (2 / 100) "t" 3).2 ∧
    jlookup "fixed_n" (log_round "r" "c" 0 0 Action.C Action.D 0 5 0 5
        "fixed" (some 1) none "t" none none) =
      some (if (FixedHorizon 1).horizon_type = "fixed"
        then jsonOfOptNat (FixedHorizon 1).total_rounds else JValue.null) := by
  refine ⟨by with_unfolding_all decide, ?_⟩
  exact (log_round_optional_fields ALLC ALLD defaultPayoffMatrix
    (FixedHorizon 1) 10 "r" "c" 0 (2 / 100) "t" 3 _
    (by with_unfolding_all decide)).1

/-- Adding a row under a fresh key creates its group at the end
(dict-insertion order). -/
theorem addToGroup_fresh :
    ∀ (gs : List ((String × Nat) × List LogRow)) (k : String × Nat)
      (r : LogRow), k ∉ gs.map Prod.fst →
      addToGroup gs k r = gs ++ [(k, [r])] := by
  intro gs
  induction gs with
  | nil =>
    intro k r _
    rfl
  | cons g t ih =>
    intro k r hk
    rcases g with ⟨k2, rs⟩
    simp only [List.map_cons, List.mem_cons, not_or] at hk
    rw [addToGroup, if_neg hk.1, ih k r hk.2]
    rfl

/-- Adding a row under the key of the trailing group appends the row to
that group. -/
theorem addToGroup_trailing :
    ∀ (gs : List ((String × Nat) × List LogRow)) (k : String × Nat)
      (cur : List LogRow) (r : LogRow), k ∉ gs.map Prod.fst →
      addToGroup (gs ++ [(k, cur)]) k r = gs ++ [(k, cur ++ [r])] := by
  intro gs
  induction gs with
  | nil =>
    intro k cur r _
    simp [addToGroup]
  | cons g t ih =>
    intro k cur r hk
    rcases g with ⟨k2, rs⟩
    simp only [List.map_cons, List.mem_cons, not_or] at hk
    rw [List.cons_append, addToGroup, if_neg hk.1, ih k cur r hk.2]
    rfl

/-- Folding a block of rows that all carry the trailing group's key keeps
appending to that group. -/
theorem foldl_groupStep_block (c : String) (i : Nat) :
    ∀ (rs : List RoundResult) (gs : List ((String × Nat) × List LogRow))
      (cur : List LogRow), (c, i) ∉ gs.map Prod.fst →
      List.foldl groupStep (gs ++ [((c, i), cur)])
        (rs.map (fun r => LogRow.mk c i r)) =
      gs ++ [((c, i), cur ++ rs.map (fun r => LogRow.mk c i r))] := by
  intro rs
  induction rs with
  | nil =>
    intro gs cur _
    simp
  | cons r rest ih =>
    intro gs cur hk
    rw [List.map_cons, List.foldl_cons]
    have hstep : groupStep (gs ++ [((c, i), cur)]) (LogRow.mk c i r) =
        gs ++ [((c, i), cur ++ [LogRow.mk c i r])] :=
      addToGroup_trailing gs (c, i) cur (LogRow.mk c i r) hk
    rw [hstep, ih gs (cur ++ [LogRow.mk c i r]) hk]
    simp

/-- Folding the whole row block of a nonempty game under a fresh key
creates exactly that game's group at the end. -/
theorem foldl_groupStep_game (c : String) (i : Nat) (r0 : RoundResult)
    (rs : List RoundResult) (gs : List ((String × Nat) × List LogRow))
    (hk : (c, i) ∉ gs.map Prod.fst) :
    List.foldl groupStep gs ((r0 :: rs).map (fun r => LogRow.mk c i r)) =
      gs ++ [((c, i), (r0 :: rs).map (fun r => LogRow.mk c i r))] := by
  rw [List.map_cons, List.foldl_cons]
  have hstep : groupStep gs (LogRow.mk c i r0) =
      gs ++ [((c, i), [LogRow.mk c i r0])] :=
    addToGroup_fresh gs (c, i) (LogRow.mk c i r0) hk
  rw [hstep, foldl_groupStep_block c i rs gs [LogRow.mk c i r0] hk]
  simp

/-- Grouping the event log of a run with pairwise-distinct keys and
nonempty games recovers one group per game, in run order. -/
theorem foldl_groupStep_eventLog :
    ∀ (run : List GameRecord) (gs : List ((String × Nat) × List LogRow)),
      (∀ g ∈ run, GameRecord.key g ∉ gs.map Prod.fst) →
      ((run.map GameRecord.key).Pairwise (fun a b => a ≠ b)) →
      (∀ g ∈ run, g.rounds ≠ []) →
      List.foldl groupStep gs (eventLog run) =
        gs ++ run.map (fun g => (GameRecord.key g,
          g.rounds.map (fun r => LogRow.mk g.condition g.replicate r))) := by
  intro run
  induction run with
  | nil =>
    intro gs _ _ _
    simp [eventLog]
  | cons g t ih =>
    intro gs hfresh hdist hne
    have hdist2 : List.Pairwise (fun a b => a ≠ b)
        (GameRecord.key g :: t.map GameRecord.key) := by
      simpa using hdist
    have hpair := List.pairwise_cons.mp hdist2
    have hlog : eventLog (g :: t) =
        g.rounds.map (fun r => LogRow.mk g.condition g.replicate r) ++
          eventLog t := by
      simp [eventLog]
    rw [hlog, List.foldl_append]
    rcases hrnil : g.rounds with _ | ⟨r0, rs⟩
    · exact absurd hrnil (hne g (by simp))
    · have hgk : (g.condition, g.replicate) ∉ gs.map Prod.fst :=
        hfresh g (by simp)
      rw [foldl_groupStep_game g.condition g.replicate r0 rs gs hgk]
      have hfresh2 : ∀ g2 ∈ t, GameRecord.key g2 ∉
          (gs ++ [((g.condition, g.replicate),
            (r0 :: rs).map (fun r => LogRow.mk g.condition g.replicate r))]).map
            Prod.fst := by
        intro g2 hg2
        simp only [List.map_append, List.mem_append, not_or, List.map_cons,
          List.map_nil, List.mem_singleton]
        refine ⟨hfresh g2 (by simp [hg2]), ?_⟩
        have hne2 : (g.condition, g.replicate) ≠ GameRecord.key g2 :=
          hpair.1 (GameRecord.key g2) (List.mem_map_of_mem _ hg2)
        intro h
        exact hne2 h.symm
      rw [ih _ hfresh2 hpair.2 (fun g2 hg2 => hne g2 (by simp [hg2]))]
      simp [hrnil, GameRecord.key]

/-- Inserting below the head of a sorted list keeps the element first. -/
theorem orderedInsert_cons_of_le {α : Type} (le : α → α → Bool) (a b : α)
    (t : List α) (h : le a b = true) :
    orderedInsert le a (b :: t) = a :: b :: t := by
  simp [orderedInsert, h]

/-- `chainB` over a mapped list is `chainB` of the pulled-back relation. -/
theorem chainB_map {α β : Type} (le : β → β → Bool) (f : α → β) :
    ∀ l : List α, chainB le (l.map f) = chainB (fun a b => le (f a) (f b)) l
  | [] => rfl
  | [_] => rfl
  | a :: b :: t => by
    simp only [List.map_cons, chainB]
    rw [show (f b :: t.map f) = (b :: t).map f from rfl,
      chainB_map le f (b :: t)]

/-- Sorting an already-sorted list is the identity. -/
theorem insertionSort_of_chainB {α : Type} (le : α → α → Bool) :
    ∀ l : List α, chainB le l = true → insertionSort le l = l := by
  intro l
  induction l with
  | nil =>
    intro _
    rfl
  | cons a t ih =>
    intro hch
    cases t with
    | nil => rfl
    | cons b t2 =>
      have hsplit : le a b = true ∧ chainB le (b :: t2) = true := by
        simpa [chainB, Bool.and_eq_true] using hch
      rw [insertionSort, ih hsplit.2]
      exact orderedInsert_cons_of_le le a b t2 hsplit.1

/-- Claim C3 amended: recomputing aggregates from the event log a run
produced, with the same collapse parameters, yields exactly the table the
run wrote, PROVIDED the run's (condition, replicate) keys are pairwise
distinct and appear in ascending key order and every game has at least
one round (each game's log rows are in ascending round order); without
the sorted-order proviso the recomputed table holds the same rows in a
different row order, and a zero-round game is dropped.  Re-running the
recomputation reads the same unchanged log, hence trivially yields the
same table again. -/
theorem recompute_aggregates_eq_run (run : List GameRecord)
    (collapse_k : Nat) (collapse_threshold : Rat)
    (hne : ∀ g ∈ run, g.rounds ≠ [])
    (hdist : (run.map GameRecord.key).Pairwise (fun a b => a ≠ b))
    (hsorted : chainB keyLe (run.map GameRecord.key) = true)
    (hri : ∀ g ∈ run, chainB
      (fun a b => decide (a.round_index ≤ b.round_index)) g.rounds = true) :
    recompute_aggregates (eventLog run) collapse_k collapse_threshold =
      run_aggregates run collapse_k collapse_threshold := by
  have hgroup : groupRows (eventLog run) =
      run.map (fun g => (GameRecord.key g,
        g.rounds.map (fun r => LogRow.mk g.condition g.replicate r))) := by
    rw [groupRows]
    exact foldl_groupStep_eventLog run [] (by simp) hdist hne
  have hc0 : chainB (fun a b =>
      keyLe (GameRecord.key a) (GameRecord.key b)) run = true := by
    rw [← chainB_map keyLe GameRecord.key run]
    exact hsorted
  have hchain : chainB (fun g1 g2 => keyLe g1.1 g2.1)
      (run.map (fun g => (GameRecord.key g,
        g.rounds.map (fun r => LogRow.mk g.condition g.replicate r)))) =
      true := by
    rw [chainB_map]
    exact hc0
  rw [show recompute_aggregates (eventLog run) collapse_k collapse_threshold =
      (insertionSort (fun g1 g2 => keyLe g1.1 g2.1)
        (groupRows (eventLog run))).map (fun g =>
          compute_metrics_for_replicate
            ((insertionSort rowLe g.2).map (fun r => r.result)) g.1.1 g.1.2
            collapse_k collapse_threshold) from rfl]
  rw [hgroup, insertionSort_of_chainB _ _ hchain, List.map_map,
    run_aggregates]
  apply List.map_congr_left
  intro g hg
  have hrowchain : chainB rowLe (g.rounds.map
      (fun r => LogRow.mk g.condition g.replicate r)) = true := by
    rw [chainB_map]
    exact hri g hg
  show compute_metrics_for_replicate
      ((insertionSort rowLe (g.rounds.map
        (fun r => LogRow.mk g.condition g.replicate r))).map
        (fun r => r.result))
      g.condition g.replicate collapse_k collapse_threshold =
    compute_metrics_for_replicate g.rounds g.condition g.replicate
      collapse_k collapse_threshold
  rw [insertionSort_of_chainB _ _ hrowchain]
  have hmaps : (g.rounds.map
      (fun r => LogRow.mk g.condition g.replicate r)).map
      (fun r => r.result) = g.rounds := by
    rw [List.map_map]
    rw [show ((fun r : LogRow => r.result) ∘ fun r : RoundResult =>
      LogRow.mk g.condition g.replicate r) = fun r : RoundResult => r from rfl]
    simp
  rw [hmaps]

/-- Witness for claim C3: the two-condition run executed in sorted
condition order. -/
theorem recompute_aggregates_eq_run_witness :
    (∀ g ∈ sortedRun, g.rounds ≠ []) ∧
    ((sortedRun.map GameRecord.key).Pairwise (fun a b => a ≠ b)) ∧
    (chainB keyLe (sortedRun.map GameRecord.key) = true) ∧
    (∀ g ∈ sortedRun, chainB
      (fun a b => decide (a.round_index ≤ b.round_index)) g.rounds = true) ∧
    recompute_aggregates (eventLog sortedRun) 10 (2 / 10) =
      run_aggregates sortedRun 10 (2 / 10) := by
  refine ⟨by with_unfolding_all decide, by with_unfolding_all decide,
    by with_unfolding_all decide, by with_unfolding_all decide, ?_⟩
  exact recompute_aggregates_eq_run sortedRun 10 (2 / 10)
    (by with_unfolding_all decide) (by with_unfolding_all decide)
    (by with_unfolding_all decide) (by with_unfolding_all decide)

end PDBench
